import Mathlib

/-!
Shallow embedding of the communication-assistant context engine:
`src/model/context_router.py` (class ContextRouter) and
`src/model/style_analyzer.py` (class CommunicationStyleAnalyzer).

Python floats are modelled as exact rationals (ℚ); all constants in the
source are decimal literals, and every claim is about the algebraic
structure of the scores, not float rounding.  Python dicts with fixed
string keys are modelled as structures whose optional keys are `Option`
fields; a raw `d[key]` access that can raise `KeyError` is modelled as an
`Option`-valued lookup that propagates `none`.
-/

/-- Lower-casing as performed by Python `str.lower` on the alphabets that
occur in this code base: ASCII letters and Russian Cyrillic (А-Я → а-я,
Ё → ё).  All rule-table keywords are already lower-case. -/
def ruLower (c : Char) : Char :=
  if 'A' ≤ c ∧ c ≤ 'Z' then Char.ofNat (c.toNat + 32)
  else if 'А' ≤ c ∧ c ≤ 'Я' then Char.ofNat (c.toNat + 32)
  else if c = 'Ё' then 'ё'
  else c

/-- Character list of `message.lower()`. -/
def lowerChars (s : String) : List Char := s.data.map ruLower

/-- The lowered string itself (used where Python keeps working on `str`). -/
def lowerString (s : String) : String := String.mk (lowerChars s)

/-- Auxiliary: `needle` is a leading segment of `haystack`. -/
def startsWithChars : List Char → List Char → Bool
  | [], _ => true
  | _ :: _, [] => false
  | a :: as, b :: bs => a = b && startsWithChars as bs

/-- Python substring containment `needle in haystack` on code-point lists. -/
def isSubstrOf (needle : List Char) (haystack : List Char) : Bool :=
  startsWithChars needle haystack ||
    match haystack with
    | [] => false
    | _ :: t => isSubstrOf needle t

/-- Python `keyword in message.lower()`: case-insensitive substring test. -/
def keywordInMessage (keyword : String) (message : String) : Bool :=
  isSubstrOf keyword.data (lowerChars message)

/-- How many words of `words` occur (as substrings, case-insensitively) in
`message`; each word is counted at most once however often it occurs. -/
def countMatches (message : String) (words : List String) : Nat :=
  (words.filter (fun w => keywordInMessage w message)).length

/-- Maximal runs of characters satisfying `p` (accumulator reversed). -/
def runsAux (p : Char → Bool) : List Char → List Char → List (List Char)
  | [], acc => if acc = [] then [] else [acc.reverse]
  | c :: cs, acc =>
      if p c then runsAux p cs (c :: acc)
      else (if acc = [] then [] else [acc.reverse]) ++ runsAux p cs []

/-- Maximal runs of characters satisfying `p` inside `cs`. -/
def charRuns (p : Char → Bool) (cs : List Char) : List (List Char) :=
  runsAux p cs []

/-- Python `s.split()`: split on whitespace runs, dropping empty chunks. -/
def splitWords (s : String) : List String :=
  (charRuns (fun c => !c.isWhitespace) s.data).map String.mk

/-- Membership of a code point in the emoji ranges of the regex
`[\U0001F600-\U0001F64F\U0001F300-\U0001F5FF\U0001F680-\U0001F6FF\U0001F1E0-\U0001F1FF]`. -/
def isEmojiChar (c : Char) : Bool :=
  decide ((0x1F600 ≤ c.toNat ∧ c.toNat ≤ 0x1F64F) ∨
    (0x1F300 ≤ c.toNat ∧ c.toNat ≤ 0x1F5FF) ∨
    (0x1F680 ≤ c.toNat ∧ c.toNat ≤ 0x1F6FF) ∨
    (0x1F1E0 ≤ c.toNat ∧ c.toNat ≤ 0x1F1FF))

/-- `_count_emojis`: number of characters in the emoji ranges. -/
def countEmojis (text : String) : Nat :=
  (text.data.filter isEmojiChar).length

/-- Unique elements in order of first occurrence (Python `Counter` key
insertion order), with the already-seen accumulator made explicit. -/
def dedupAux : List String → List String → List String
  | [], _ => []
  | x :: xs, seen =>
      if x ∈ seen then dedupAux xs seen else x :: dedupAux xs (x :: seen)

/-- Unique elements of `l` in order of first occurrence. -/
def dedupFirstOcc (l : List String) : List String := dedupAux l []

/-- Python `min(a, b)` on two numbers, kept executable for the kernel. -/
def pyMin (a b : ℚ) : ℚ := if a ≤ b then a else b

/-- Python `abs(q)`, kept executable for the kernel. -/
def pyAbs (q : ℚ) : ℚ := if q < 0 then -q else q

theorem pyMin_eq_min (a b : ℚ) : pyMin a b = min a b := (min_def a b).symm

theorem pyAbs_eq_abs (q : ℚ) : pyAbs q = |q| := by
  rcases lt_or_le q 0 with h | h
  · simp [pyAbs, h, abs_of_neg h]
  · simp [pyAbs, not_lt.mpr h, abs_of_nonneg h]

/-! ## ContextRouter: rule table and signal structures -/

/-- One entry of `ContextRouter.context_rules`.  The Python dict omits some
keys for some contexts; every read of an optional key goes through
`dict.get(key, default)`, so an absent key is modelled by the same default
the code supplies (`[]` for the word/emoji lists, and the
`_generate_suggestions` defaults `'medium'` / `2` for length and limit). -/
structure ContextRules where
  keywords : List String := []
  avoid_keywords : List String := []
  emojis : List String := []
  time_preference : List String := []
  typical_length : String := "medium"
  emoji_limit : Nat := 2
deriving Repr, DecidableEq

/-- The professional entry of `_build_context_rules`. -/
def professionalRules : ContextRules :=
  { keywords := ["работа", "проект", "задача", "встреча", "коллега",
                 "начальник", "дедлайн", "отчет", "презентация", "бизнес"],
    avoid_keywords := ["люблю", "обнимаю", "целую", "ха-ха"],
    time_preference := ["morning", "afternoon"],
    typical_length := "medium", emoji_limit := 1 }

/-- The family entry of `_build_context_rules`. -/
def familyRules : ContextRules :=
  { keywords := ["мама", "папа", "родители", "брат", "сестра",
                 "семья", "родные", "дети", "внуки", "бабушка", "дедушка"],
    avoid_keywords := ["уважаемый", "коллега", "протокол"],
    time_preference := ["evening", "weekend"],
    typical_length := "short", emoji_limit := 3 }

/-- The romantic entry of `_build_context_rules` (no avoid keywords). -/
def romanticRules : ContextRules :=
  { keywords := ["люблю", "обожаю", "дорогой", "милый", "любимый",
                 "романтика", "отношения", "чувства", "сердце", "поцелуй"],
    emojis := ["❤️", "💕", "😘", "💋", "😍", "🥰"],
    time_preference := ["evening", "night"],
    typical_length := "medium", emoji_limit := 2 }

/-- The friendly entry of `_build_context_rules` (no avoid keywords). -/
def friendlyRules : ContextRules :=
  { keywords := ["друг", "подруга", "приятель", "тусовка", "встреча",
                 "кафе", "кино", "прогулка", "вечеринка"],
    emojis := ["😊", "😂", "😎", "👍", "👋"],
    time_preference := ["afternoon", "evening"],
    typical_length := "short", emoji_limit := 3 }

/-- The creative entry of `_build_context_rules` (no avoid keywords). -/
def creativeRules : ContextRules :=
  { keywords := ["идея", "творчество", "вдохновение", "проект", "искусство",
                 "музыка", "рисунок", "писать", "создавать", "креатив"],
    time_preference := ["night", "flexible"],
    typical_length := "long", emoji_limit := 2 }

/-- The five-entry rule table built by `_build_context_rules`, in dict
insertion order. -/
def contextRules : List (String × ContextRules) :=
  [("professional", professionalRules),
   ("family", familyRules),
   ("romantic", romanticRules),
   ("friendly", friendlyRules),
   ("creative", creativeRules)]

/-- `self.weights['keyword_match']`. -/
def weightKeywordMatch : ℚ := 0.4

/-- `self.weights['dialog_history']`. -/
def weightDialogHistory : ℚ := 0.3

/-- `self.weights['time_of_day']`. -/
def weightTimeOfDay : ℚ := 0.1

/-- `self.weights['user_preferences']`. -/
def weightUserPreferences : ℚ := 0.2

/-- Result of `_analyze_message`; the empty-message `{}` is the all-default
value (every consumer reads it with falsy-tolerant `dict.get`). -/
structure MessageAnalysis where
  length : Nat := 0
  has_questions : Bool := false
  has_exclamations : Bool := false
  emoji_count : Nat := 0
  has_context_keywords : Bool := false
  detected_keyword : Option String := none
  detected_context : Option String := none
deriving Repr, DecidableEq

/-- Result of `_analyze_history` (`{}` when nothing matched). -/
structure HistoryAnalysis where
  recent_context : Option String := none
  context_frequency : Option ℚ := none
deriving Repr, DecidableEq

/-- The optional `time_info` argument (a dict of optional keys). -/
structure TimeInfo where
  hour : Option Int := none
  weekday : Option Int := none
  is_holiday : Option Bool := none
deriving Repr, DecidableEq

/-- Result of `_analyze_time` (`{}` when `hour` is absent). -/
structure TimeAnalysis where
  current_period : Option String := none
  hour : Option Int := none
  weekday : Option Int := none
  is_weekend : Option Bool := none
  period_adjustment : Option String := none
  is_holiday : Option Bool := none
deriving Repr, DecidableEq

/-- The optional `user_preferences` argument. -/
structure Preferences where
  fav_contexts : Option (List String) := none
  avoid_contexts : Option (List String) := none
  communication_style : Option String := none
deriving Repr, DecidableEq

/-- Result of `_analyze_preferences`. -/
structure PreferencesAnalysis where
  fav_contexts : Option (List String) := none
  avoid_contexts : Option (List String) := none
  style : Option String := none
deriving Repr, DecidableEq

/-- `_calculate_keyword_score`: `min(matches * 0.3, 1.0)`, zero on an empty
message or keyword list. -/
def calculateKeywordScore (message : String) (keywords : List String) : ℚ :=
  if message = "" ∨ keywords = [] then 0
  else pyMin ((countMatches message keywords : ℚ) * 0.3) 1

/-- `_calculate_avoid_score`: `min(matches * 0.2, 1.0)`, zero on an empty
message or word list. -/
def calculateAvoidScore (message : String) (avoid_words : List String) : ℚ :=
  if message = "" ∨ avoid_words = [] then 0
  else pyMin ((countMatches message avoid_words : ℚ) * 0.2) 1

/-- `_analyze_message`: word count, punctuation flags, emoji count, and the
first rule-table context (in table order) one of whose keywords occurs. -/
def analyzeMessage (rules : List (String × ContextRules)) (message : String) :
    MessageAnalysis :=
  if message = "" then {}
  else
    let base : MessageAnalysis :=
      { length := (splitWords message).length,
        has_questions := message.data.contains '?',
        has_exclamations := message.data.contains '!',
        emoji_count := countEmojis message }
    match rules.find? (fun cr =>
        cr.2.keywords.any (fun k => keywordInMessage k message)) with
    | none => base
    | some cr =>
        { base with
          has_context_keywords := true
          detected_keyword :=
            cr.2.keywords.find? (fun k => keywordInMessage k message)
          detected_context := some cr.1 }

/-- `Counter(l).most_common(1)`: the element with the highest count, ties
broken by first occurrence in `l` (Python `Counter` iteration order).
Returns the element together with its count. -/
def mostCommon (l : List String) : Option (String × Nat) :=
  (dedupFirstOcc l).foldl
    (fun best x =>
      match best with
      | none => some (x, l.count x)
      | some bc => if l.count x > bc.2 then some (x, l.count x) else some bc)
    none

/-- The per-message context hits collected by the history loop: every
context one of whose keywords occurs in the message, in table order. -/
def contextHits (rules : List (String × ContextRules)) (msg : String) :
    List String :=
  rules.filterMap (fun cr =>
    if cr.2.keywords.any (fun k => keywordInMessage k msg) then some cr.1
    else none)

/-- `_analyze_history`: scan the last 5 entries, collect matched contexts,
and report the most frequent one with its relative frequency. -/
def analyzeHistory (rules : List (String × ContextRules))
    (history : List String) : HistoryAnalysis :=
  if history = [] then {}
  else
    let recent_messages :=
      if history.length > 5 then history.drop (history.length - 5) else history
    let recent_contexts := recent_messages.flatMap (contextHits rules)
    match mostCommon recent_contexts with
    | none => {}
    | some mc =>
        { recent_context := some mc.1
          context_frequency := some ((mc.2 : ℚ) / recent_messages.length) }

/-- `_analyze_time`: hour → period-of-day plus informational weekday and
holiday annotations. -/
def analyzeTime (time_info : TimeInfo) : TimeAnalysis :=
  match time_info.hour with
  | none => {}
  | some hour =>
    let period :=
      if 6 ≤ hour ∧ hour < 12 then "morning"
      else if 12 ≤ hour ∧ hour < 18 then "afternoon"
      else if 18 ≤ hour ∧ hour < 23 then "evening"
      else "night"
    let base : TimeAnalysis := { current_period := some period, hour := some hour }
    let withWd :=
      match time_info.weekday with
      | none => base
      | some wd =>
          if wd ≥ 5 then
            { base with
              weekday := some wd
              is_weekend := some true
              period_adjustment := some "more_casual" }
          else { base with weekday := some wd }
    match time_info.is_holiday with
    | some true =>
        { withWd with
          is_holiday := some true
          period_adjustment := some "festive" }
    | _ => withWd

/-- `_analyze_preferences`: verbatim pass-through of the present keys. -/
def analyzePreferences (preferences : Preferences) : PreferencesAnalysis :=
  { fav_contexts := preferences.fav_contexts
    avoid_contexts := preferences.avoid_contexts
    style := preferences.communication_style }

/-- Body of the scoring loop of `route_context` for one context. -/
def contextScore (message : String) (rules : ContextRules)
    (context_name : String) (history_analysis : HistoryAnalysis)
    (time_analysis : TimeAnalysis)
    (preferences_analysis : PreferencesAnalysis) : ℚ :=
  let s1 := calculateKeywordScore message rules.keywords * weightKeywordMatch
  let s2 := s1 +
    (match history_analysis.recent_context with
     | some rc => if rc = context_name then 0.3 * weightDialogHistory else 0
     | none => 0)
  let s3 := s2 +
    (match time_analysis.current_period with
     | some p => if p ∈ rules.time_preference then 0.2 * weightTimeOfDay else 0
     | none => 0)
  let s4 := s3 +
    (match preferences_analysis.fav_contexts with
     | some favs => if context_name ∈ favs then 0.3 * weightUserPreferences else 0
     | none => 0)
  s4 - calculateAvoidScore message rules.avoid_keywords * 0.2

/-- The `context_scores` association list computed by `route_context`, in
rule-table order. -/
def routeScores (rules : List (String × ContextRules)) (message : String)
    (history_analysis : HistoryAnalysis) (time_analysis : TimeAnalysis)
    (preferences_analysis : PreferencesAnalysis) : List (String × ℚ) :=
  rules.map (fun cr =>
    (cr.1, contextScore message cr.2 cr.1 history_analysis time_analysis
      preferences_analysis))

/-- Descending-by-score comparison used to model Python's stable
`sorted(context_scores.items(), key=lambda x: x[1], reverse=True)`. -/
def scoreGE (a b : String × ℚ) : Prop := a.2 ≥ b.2

instance : DecidableRel scoreGE := fun a b =>
  inferInstanceAs (Decidable (a.2 ≥ b.2))

instance : IsTotal (String × ℚ) scoreGE := ⟨fun a b => le_total b.2 a.2⟩

instance : IsTrans (String × ℚ) scoreGE :=
  ⟨fun _ _ _ h1 h2 => le_trans h2 h1⟩

/-- The `suggestions` dict of `_generate_suggestions`. -/
structure Suggestions where
  tone : String
  length : String
  emoji_limit : Nat
  key_phrases : List String
  avoid : List String
  response_type : Option String := none
deriving Repr, DecidableEq

/-- `_suggest_tone`. -/
def suggestTone (context : String) (message_analysis : MessageAnalysis) :
    String :=
  let base :=
    if context = "professional" then "formal_respectful"
    else if context = "family" then "warm_caring"
    else if context = "romantic" then "tender_affectionate"
    else if context = "friendly" then "casual_friendly"
    else if context = "creative" then "expressive_inspirational"
    else "neutral"
  if message_analysis.has_exclamations ∧
      (context = "friendly" ∨ context = "creative") then
    "enthusiastic_" ++ base
  else base

/-- `_suggest_key_phrases`. -/
def suggestKeyPhrases (context : String) : List String :=
  if context = "professional" then
    ["Благодарю за сообщение", "Предлагаю рассмотреть", "Согласовано",
     "Прошу уточнить"]
  else if context = "family" then
    ["Привет, как дела?", "Обнимаю крепко", "Целую", "Скучаю по вам"]
  else if context = "romantic" then
    ["Привет, мой дорогой", "Скучаю по тебе", "Люблю тебя",
     "Ты у меня самый лучший"]
  else if context = "friendly" then
    ["Привет!", "Как дела?", "Что нового?", "Давай встретимся"]
  else if context = "creative" then
    ["Интересная мысль!", "Вдохновляюще", "Креативный подход",
     "Продолжаем творить"]
  else ["Привет!", "Как дела?"]

/-- `_generate_suggestions`; the `rules.get(context, {})` read is the
default-`ContextRules` fallback. -/
def generateSuggestions (rules : List (String × ContextRules))
    (context : String) (message_analysis : MessageAnalysis)
    (time_analysis : TimeAnalysis) : Suggestions :=
  let r := (rules.lookup context).getD {}
  let s : Suggestions :=
    { tone := suggestTone context message_analysis
      length := r.typical_length
      emoji_limit := r.emoji_limit
      key_phrases := suggestKeyPhrases context
      avoid := r.avoid_keywords.take 3 }
  let s :=
    if message_analysis.has_questions then
      { s with response_type := some "answer" }
    else if message_analysis.has_exclamations then
      { s with response_type := some "reaction" }
    else s
  match time_analysis.current_period with
  | some p =>
      if p = "night" ∧ context ≠ "professional" then
        { s with tone := "more_relaxed" }
      else s
  | none => s

/-- The reasoning string assembled at the end of `route_context`; `pr` is
the rule entry obtained by the raw `self.context_rules[primary_context]`
access. -/
def mkReasoning (message_analysis : MessageAnalysis)
    (history_analysis : HistoryAnalysis) (time_analysis : TimeAnalysis)
    (primary_context : String) (pr : ContextRules) : String :=
  let parts :=
    (if message_analysis.has_context_keywords then
      ["Обнаружены ключевые слова контекста"] else []) ++
    (if history_analysis.recent_context = some primary_context then
      ["Совпадает с недавним контекстом диалога"] else []) ++
    (if (match time_analysis.current_period with
         | some p => pr.time_preference.contains p
         | none => false) then
      ["Подходит для текущего времени суток"] else [])
  if parts = [] then "Определено по общим признакам"
  else String.intercalate "; " parts

/-- The `ContextRoute` dataclass. -/
structure ContextRoute where
  primary_context : String
  secondary_contexts : List String
  confidence : ℚ
  reasoning : String
  suggestions : Suggestions
deriving Repr, DecidableEq

/-- The `self._analyze_history(dialog_history) if dialog_history else {}`
step of `route_context` (`None` and `[]` are both falsy). -/
def routeHistoryAnalysis (rules : List (String × ContextRules))
    (dialog_history : List String) : HistoryAnalysis :=
  if dialog_history.isEmpty then {} else analyzeHistory rules dialog_history

/-- The `self._analyze_time(time_info) if time_info else {}` step of
`route_context`. -/
def routeTimeAnalysis (time_info : Option TimeInfo) : TimeAnalysis :=
  match time_info with
  | none => {}
  | some ti => analyzeTime ti

/-- The `self._analyze_preferences(user_preferences) if user_preferences
else {}` step of `route_context`. -/
def routePrefsAnalysis (user_preferences : Option Preferences) :
    PreferencesAnalysis :=
  match user_preferences with
  | none => {}
  | some p => analyzePreferences p

/-- The ranking tail of `route_context`: from the stably sorted score
list, pick primary/confidence/secondary, build suggestions and reasoning.
The `[]` arm is the `if not sorted_contexts` friendly/0.5 fallback, and a
`none` result is the `KeyError` of the raw
`self.context_rules[primary_context]` access. -/
def routeFromSorted (rules : List (String × ContextRules))
    (message_analysis : MessageAnalysis) (history_analysis : HistoryAnalysis)
    (time_analysis : TimeAnalysis)
    (sorted_contexts : List (String × ℚ)) : Option ContextRoute :=
  match sorted_contexts with
  | [] =>
      let primary_context := "friendly"
      let confidence : ℚ := 0.5
      let suggestions :=
        generateSuggestions rules primary_context message_analysis
          time_analysis
      match rules.lookup primary_context with
      | none => none
      | some pr =>
          some { primary_context := primary_context
                 secondary_contexts := []
                 confidence := confidence
                 reasoning :=
                   mkReasoning message_analysis history_analysis time_analysis
                     primary_context pr
                 suggestions := suggestions }
  | (pc, ps) :: rest =>
      let max_possible_score : ℚ :=
        weightKeywordMatch + weightDialogHistory + weightTimeOfDay +
          weightUserPreferences
      let confidence := pyMin (ps / max_possible_score) 1
      let secondary_contexts :=
        match rest with
        | [] => []
        | (sc, ss) :: _ => if pyAbs (ps - ss) < 0.1 then [sc] else []
      let suggestions :=
        generateSuggestions rules pc message_analysis time_analysis
      match rules.lookup pc with
      | none => none
      | some pr =>
          some { primary_context := pc
                 secondary_contexts := secondary_contexts
                 confidence := confidence
                 reasoning :=
                   mkReasoning message_analysis history_analysis time_analysis
                     pc pr
                 suggestions := suggestions }

/-- `route_context` over a rule table: analyze the signals, score every
context, sort descending (stably), and delegate to `routeFromSorted`. -/
def routeContext (rules : List (String × ContextRules)) (message : String)
    (dialog_history : List String := []) (user_preferences : Option Preferences := none)
    (time_info : Option TimeInfo := none) : Option ContextRoute :=
  let message_analysis := analyzeMessage rules message
  let history_analysis := routeHistoryAnalysis rules dialog_history
  let time_analysis := routeTimeAnalysis time_info
  let preferences_analysis := routePrefsAnalysis user_preferences
  let context_scores :=
    routeScores rules message history_analysis time_analysis
      preferences_analysis
  let sorted_contexts := context_scores.insertionSort scoreGE
  routeFromSorted rules message_analysis history_analysis time_analysis
    sorted_contexts

/-- The hard-coded compatibility map of `validate_context_switch`. -/
def compatibility : List (String × List String) :=
  [("professional", ["friendly", "creative"]),
   ("family", ["friendly", "romantic"]),
   ("romantic", ["family", "friendly"]),
   ("friendly", ["professional", "family", "romantic", "creative"]),
   ("creative", ["professional", "friendly"])]

/-- `validate_context_switch`. -/
def validateContextSwitch (rules : List (String × ContextRules))
    (current_context : String) (proposed_context : String)
    (dialog_history : List String) : Bool × String :=
  if current_context = proposed_context then (true, "Тот же контекст")
  else if proposed_context ∉ (compatibility.lookup current_context).getD [] then
    (false, "Резкий переход с " ++ current_context ++ " на " ++
      proposed_context)
  else if dialog_history.length > 3 then
    let recent_contexts :=
      (dialog_history.drop (dialog_history.length - 3)).flatMap
        (contextHits rules)
    if proposed_context ∈ recent_contexts then
      (true, "Плавный переход на основе истории")
    else (true, "Переход разрешен")
  else (true, "Переход разрешен")

example : keywordInMessage "дедлайн" "Завтра ДЕДЛАЙН по проекту" = true := by
  decide

example :
    calculateKeywordScore "Завтра дедлайн по проекту"
      ["работа", "проект", "задача", "встреча", "коллега",
       "начальник", "дедлайн", "отчет", "презентация", "бизнес"] = 0.6 := by
  with_unfolding_all decide

example :
    (validateContextSwitch contextRules "professional" "family" []).1 = false := by
  decide

/-! ## CommunicationStyleAnalyzer -/

/-- One entry of `CommunicationStyleAnalyzer.context_patterns`. -/
structure ContextPattern where
  formality_words : List String := []
  emotional_words : List String := []
  humor_words : List String := []
  typical_length : String := "medium"
  common_endings : List String := []
deriving Repr, DecidableEq

/-- The pattern table built by `_load_context_patterns`, in dict insertion
order. -/
def contextPatterns : List (String × ContextPattern) :=
  [("professional",
    { formality_words := ["уважаемый", "коллега", "прошу", "предлагаю",
                          "согласовано"],
      typical_length := "medium",
      common_endings := ["С уважением", "Благодарю",
                         "С наилучшими пожеланиями"] }),
   ("family",
    { emotional_words := ["люблю", "обнимаю", "целую", "скучаю"],
      humor_words := ["ха-ха", "смешно", "прикол"],
      typical_length := "short",
      common_endings := ["Целую", "Обнимаю", "Люблю"] }),
   ("romantic",
    { emotional_words := ["люблю", "обожаю", "нежный", "романтик", "мечта"],
      typical_length := "medium",
      common_endings := ["Целую", "Обнимаю", "Твой/Твоя"] }),
   ("friendly",
    { emotional_words := ["класс", "отлично", "супер", "круто"],
      humor_words := ["лол", "кек", "ржака", "прикол"],
      typical_length := "short",
      common_endings := ["Пока", "До связи", "Удачи"] }),
   ("creative",
    { emotional_words := ["вдохновение", "креатив", "творчество"],
      humor_words := ["ирония", "сарказм", "шутка"],
      typical_length := "long",
      common_endings := ["Творческих успехов", "Вдохновения"] })]

/-- The analyzer's Russian stop-word set. -/
def stopWords : List String :=
  ["это", "как", "так", "и", "в", "над", "к", "до", "не", "на",
   "но", "за", "то", "с", "ли", "а", "во", "от", "со", "для", "о"]

/-- The `characteristics` dict assembled by `analyze_context`. -/
structure Characteristics where
  formality : ℚ
  emotionality : ℚ
  humor_level : ℚ
  emoji_frequency : ℚ
  message_length : String
  contains_questions : Bool
  contains_exclamations : Bool
  word_count : Nat
deriving Repr, DecidableEq

/-- Formal-word list of `_calculate_formality`. -/
def formalWords : List String :=
  ["уважаемый", "прошу", "предлагаю", "согласовано", "документ",
   "договор", "сотрудничество", "официально"]

/-- `_calculate_formality`: `min(formal_count / len(words) * 3, 1.0)` over
words of the lowered text (word-level membership, not substring). -/
def calculateFormality (text : String) : ℚ :=
  let words := splitWords (lowerString text)
  if words = [] then 0
  else
    pyMin (((words.filter (fun w => w ∈ formalWords)).length : ℚ) /
      words.length * 3) 1

/-- Emotional-word list of `_calculate_emotionality`. -/
def emotionalWords : List String :=
  ["люблю", "обожаю", "ненавижу", "злюсь", "радуюсь",
   "грущу", "волнуюсь", "беспокоюсь", "восхищаюсь"]

/-- Emotional-emoji list of `_calculate_emotionality`. -/
def emotionalEmojis : List String := ["❤️", "😍", "😢", "😂", "😡", "🥰", "😭"]

/-- `_calculate_emotionality`: word ratio ×2, plus 0.1 per matched emoji,
plus `min(0.05 × exclamation_count, 0.3)`, clamped to 1. -/
def calculateEmotionality (text : String) : ℚ :=
  let words := splitWords (lowerString text)
  let s1 : ℚ :=
    if words = [] then 0
    else ((words.filter (fun w => w ∈ emotionalWords)).length : ℚ) /
      words.length * 2
  let s2 := s1 +
    ((emotionalEmojis.filter (fun e => isSubstrOf e.data text.data)).length : ℚ)
      * 0.1
  let s3 := s2 +
    pyMin (((text.data.filter (fun c => c = '!')).length : ℚ) * 0.05) 0.3
  pyMin s3 1

/-- Indicator list of `_calculate_humor_level`. -/
def humorIndicators : List String :=
  ["ха-ха", "хе-хе", "лол", "кек", "смешно", "прикол",
   "шутка", "юмор", "анекдот", "😂", "🤣", "😄"]

/-- `_calculate_humor_level`: 0.2 per indicator occurring in the lowered
text, clamped to 1. -/
def calculateHumorLevel (text : String) : ℚ :=
  pyMin (((humorIndicators.filter
    (fun i => isSubstrOf i.data (lowerChars text))).length : ℚ) * 0.2) 1

/-- `_calculate_emoji_frequency`: `min(len(emojis) / len(text) * 100, 1.0)`,
zero on empty text. -/
def calculateEmojiFrequency (text : String) : ℚ :=
  let emojis := text.data.filter isEmojiChar
  if text = "" then 0
  else pyMin ((emojis.length : ℚ) / text.data.length * 100) 1

/-- `_classify_length`: word-count thresholds 5 and 20. -/
def classifyLength (text : String) : String :=
  let word_count := (splitWords text).length
  if word_count < 5 then "short"
  else if word_count < 20 then "medium"
  else "long"

/-- The per-context suggestion dict of `_suggest_response_style`. -/
structure ResponseStyle where
  tone : String
  emoji_limit : Nat
  length : String
  key_phrases : List String
deriving Repr, DecidableEq

/-- The base suggestion table of `_suggest_response_style`; an unknown
context falls back to the friendly entry (`suggestions.get(context,
suggestions['friendly'])`). -/
def baseResponseStyle (context : String) : ResponseStyle :=
  if context = "professional" then
    { tone := "formal", emoji_limit := 0, length := "medium",
      key_phrases := ["Благодарю", "Согласовано", "Предлагаю",
                      "Прошу рассмотреть"] }
  else if context = "family" then
    { tone := "warm", emoji_limit := 3, length := "short",
      key_phrases := ["Целую", "Обнимаю", "Люблю", "Скучаю"] }
  else if context = "romantic" then
    { tone := "tender", emoji_limit := 2, length := "medium",
      key_phrases := ["Милый", "Дорогой", "Люблю", "Скучаю по тебе"] }
  else if context = "creative" then
    { tone := "expressive", emoji_limit := 2, length := "long",
      key_phrases := ["Интересно", "Креативно", "Вдохновляюще", "Творчески"] }
  else
    { tone := "casual", emoji_limit := 3, length := "short",
      key_phrases := ["Привет", "Как дела", "Что нового",
                      "Давай созвонимся"] }

/-- `_suggest_response_style`: tone override by emotionality then
formality, emoji budget bump on high emoji frequency. -/
def suggestResponseStyle (context : String) (ch : Characteristics) :
    ResponseStyle :=
  let base := baseResponseStyle context
  let adapted :=
    if ch.emotionality > 0.7 then { base with tone := "emotional" }
    else if ch.formality > 0.7 then { base with tone := "very_formal" }
    else base
  if ch.emoji_frequency > 0.5 then
    { adapted with emoji_limit := min (adapted.emoji_limit + 2) 5 }
  else adapted

/-- Keyword list of `_is_work_related` (the router's professional list
minus "бизнес"). -/
def workKeywords : List String :=
  ["работа", "проект", "задача", "встреча", "коллега",
   "начальник", "дедлайн", "отчет", "презентация"]

/-- `_is_work_related`. -/
def isWorkRelated (text : String) : Bool :=
  workKeywords.any (fun k => keywordInMessage k text)

/-- Keyword list of `_is_family_related`. -/
def familyRelatedKeywords : List String :=
  ["мама", "папа", "родители", "брат", "сестра",
   "семья", "родные", "дети", "внуки"]

/-- `_is_family_related`. -/
def isFamilyRelated (text : String) : Bool :=
  familyRelatedKeywords.any (fun k => keywordInMessage k text)

/-- Keyword list of `_is_romantic_related`. -/
def romanticRelatedKeywords : List String :=
  ["люблю", "обожаю", "дорогой", "милый", "любимый",
   "романтика", "отношения", "чувства", "сердце"]

/-- Emoji list of `_is_romantic_related`. -/
def romanticRelatedEmojis : List String := ["❤️", "💕", "😘", "💋", "😍"]

/-- `_is_romantic_related`: keyword in lowered text or emoji in raw text. -/
def isRomanticRelated (text : String) : Bool :=
  romanticRelatedKeywords.any (fun k => keywordInMessage k text) ||
    romanticRelatedEmojis.any (fun e => isSubstrOf e.data text.data)

/-- Scoring loop body of `analyze_context`: +0.3 per formality word,
+0.2 per emotional word, +0.2 per humor word, each counted once. -/
def patternScore (p : ContextPattern) (text : String) : ℚ :=
  ((p.formality_words.filter (fun w => keywordInMessage w text)).length : ℚ)
      * 0.3 +
    ((p.emotional_words.filter (fun w => keywordInMessage w text)).length : ℚ)
      * 0.2 +
    ((p.humor_words.filter (fun w => keywordInMessage w text)).length : ℚ)
      * 0.2

/-- Automatic context detection of `analyze_context`: arg-max over the
pattern table, Python `max` keeping the first maximal item; "friendly" if
the table is empty. -/
def autoDetectContext (text : String) : String :=
  let context_scores := contextPatterns.map (fun cp =>
    (cp.1, patternScore cp.2 text))
  match context_scores with
  | [] => "friendly"
  | x :: xs => (xs.foldl (fun best y => if y.2 > best.2 then y else best) x).1

/-- The dict returned by `analyze_context`; the empty-text early return
carries no characteristics and no suggested responses, the normal return
carries no suggested contexts. -/
structure AnalyzeResult where
  detected_context : String
  confidence : ℚ
  characteristics : Option Characteristics := none
  suggested_responses : Option ResponseStyle := none
  suggested_contexts : Option (List String) := none
deriving Repr, DecidableEq

/-- `analyze_context`.  A `none` dialog context models Python `None`; the
empty string is falsy in Python, so `dc ≠ ""` models the `dialog_context
and` truthiness test. -/
def analyzeContext (text : String) (dialog_context : Option String) :
    AnalyzeResult :=
  if text = "" then
    { detected_context := "unknown", confidence := 0,
      suggested_contexts := some [] }
  else
    let primary0 :=
      match dialog_context with
      | some dc =>
          if dc ≠ "" ∧ (contextPatterns.lookup dc).isSome then dc
          else autoDetectContext text
      | none => autoDetectContext text
    let primary_context :=
      if isWorkRelated text then "professional"
      else if isFamilyRelated text then "family"
      else if isRomanticRelated text then "romantic"
      else primary0
    let characteristics : Characteristics :=
      { formality := calculateFormality text
        emotionality := calculateEmotionality text
        humor_level := calculateHumorLevel text
        emoji_frequency := calculateEmojiFrequency text
        message_length := classifyLength text
        contains_questions := text.data.contains '?'
        contains_exclamations := text.data.contains '!'
        word_count := (splitWords text).length }
    { detected_context := primary_context
      confidence := 0.8
      characteristics := some characteristics
      suggested_responses :=
        some (suggestResponseStyle primary_context characteristics) }

/-! ## Style signature aggregation -/

/-- Descending-by-count comparison for Python's count-sorted
`Counter.most_common` (stable for ties). -/
def countGE (a b : String × Nat) : Prop := a.2 ≥ b.2

instance : DecidableRel countGE := fun a b =>
  inferInstanceAs (Decidable (a.2 ≥ b.2))

instance : IsTotal (String × Nat) countGE := ⟨fun a b => le_total b.2 a.2⟩

instance : IsTrans (String × Nat) countGE :=
  ⟨fun _ _ _ h1 h2 => le_trans h2 h1⟩

/-- A character the regex `\w` (hence `\b`) treats as a word character, for
the alphabets occurring in this code base. -/
def isWordChar (c : Char) : Bool :=
  c.isAlphanum || c = '_' ||
    decide (('а' ≤ c ∧ c ≤ 'я') ∨ c = 'ё' ∨ ('А' ≤ c ∧ c ≤ 'Я') ∨ c = 'Ё')

/-- A lower-case Cyrillic letter, the character class `[а-яё]`. -/
def isCyrLower (c : Char) : Bool :=
  decide (('а' ≤ c ∧ c ≤ 'я') ∨ c = 'ё')

/-- Matches of `\b[а-яё]{3,}\b` on the lowered message: the maximal
word-character runs made up entirely of lower-case Cyrillic letters with
length at least 3. -/
def regexWords (msg : String) : List String :=
  ((charRuns isWordChar (lowerChars msg)).filter
    (fun r => r.all isCyrLower ∧ r.length ≥ 3)).map String.mk

/-- `_extract_common_words`: stop-word-filtered regex words over the
corpus, the 20 most frequent first (count-descending, ties by first
occurrence). -/
def extractCommonWords (messages : List String) : List String :=
  let all_words := messages.flatMap (fun msg =>
    (regexWords msg).filter (fun w => w ∉ stopWords))
  let word_counts :=
    (dedupFirstOcc all_words).map (fun w => (w, all_words.count w))
  ((word_counts.insertionSort countGE).take 20).map Prod.fst

/-- The adjacent 2-word phrases of one message that survive the
`len(phrase) > 5 and phrase not in stop_words` filter. -/
def adjacentPhrases (msg : String) : List String :=
  let words := splitWords (lowerString msg)
  ((List.range (words.length - 1)).map (fun i =>
      (words.getD i "") ++ " " ++ (words.getD (i + 1) ""))).filter
    (fun phrase => phrase.length > 5 ∧ phrase ∉ stopWords)

/-- `_extract_common_phrases`: the 10 most frequent adjacent 2-word
phrases, keeping only those occurring more than once. -/
def extractCommonPhrases (messages : List String) : List String :=
  let phrases := messages.flatMap adjacentPhrases
  let phrase_counts :=
    (dedupFirstOcc phrases).map (fun p => (p, phrases.count p))
  (((phrase_counts.insertionSort countGE).take 10).filter
    (fun pc => pc.2 > 1)).map Prod.fst

/-- `np.mean` over a list of exact rationals. -/
def meanQ (l : List ℚ) : ℚ := l.sum / l.length

/-- The numeric-average dict of `extract_style_signature`.  The key order
follows the characteristics dict; `message_length` is skipped as
non-numeric, while the two booleans pass Python's
`isinstance(x, (int, float))` test (bool is an int subclass) and are
averaged as 0/1. -/
def avgCharacteristics (cs : List Characteristics) : List (String × ℚ) :=
  [("formality", meanQ (cs.map Characteristics.formality)),
   ("emotionality", meanQ (cs.map Characteristics.emotionality)),
   ("humor_level", meanQ (cs.map Characteristics.humor_level)),
   ("emoji_frequency", meanQ (cs.map Characteristics.emoji_frequency)),
   ("contains_questions",
     meanQ (cs.map (fun c => if c.contains_questions then 1 else 0))),
   ("contains_exclamations",
     meanQ (cs.map (fun c => if c.contains_exclamations then 1 else 0))),
   ("word_count", meanQ (cs.map (fun c => (c.word_count : ℚ))))]

/-- `_describe_style` over the averaged-characteristics dict. -/
def describeStyle (characteristics : List (String × ℚ)) : String :=
  if characteristics = [] then "Неизвестный стиль"
  else
    let formality := (characteristics.lookup "formality").getD 0
    let d1 :=
      if formality > 0.7 then "формальный"
      else if formality > 0.3 then "умеренно формальный"
      else "неформальный"
    let emotionality := (characteristics.lookup "emotionality").getD 0
    let d2 :=
      if emotionality > 0.7 then "эмоциональный"
      else if emotionality > 0.3 then "умеренно эмоциональный"
      else "сдержанный"
    let avg_length := (characteristics.lookup "word_count").getD 0
    let d3 :=
      if avg_length > 15 then "развернутый"
      else if avg_length > 5 then "умеренный по длине"
      else "лаконичный"
    String.intercalate ", " [d1, d2, d3]

/-- The dict returned by `extract_style_signature` on a non-empty corpus. -/
structure StyleSignature where
  context : String
  avg_characteristics : List (String × ℚ)
  common_words : List String
  common_phrases : List String
  message_count : Nat
  style_description : String
deriving Repr, DecidableEq

/-- Distinguishes the `{}` returned for an empty corpus from a populated
signature. -/
inductive SignatureResult where
  | emptyDict : SignatureResult
  | sig : StyleSignature → SignatureResult
deriving Repr, DecidableEq

/-- The `analysis['characteristics']` collection loop of
`extract_style_signature`; `none` models the `KeyError` raised when a
corpus message is empty (its analysis dict has no characteristics key). -/
def collectCharacteristics (messages : List String) (context : String) :
    Option (List Characteristics) :=
  match messages with
  | [] => some []
  | m :: ms =>
      match (analyzeContext m (some context)).characteristics with
      | none => none
      | some c =>
          match collectCharacteristics ms context with
          | none => none
          | some cs => some (c :: cs)

/-- `extract_style_signature`. -/
def extractStyleSignature (messages : List String) (context : String) :
    Option SignatureResult :=
  if messages = [] then some SignatureResult.emptyDict
  else
    match collectCharacteristics messages context with
    | none => none
    | some all_characteristics =>
        let avg :=
          if all_characteristics = [] then []
          else avgCharacteristics all_characteristics
        some (SignatureResult.sig
          { context := context
            avg_characteristics := avg
            common_words := (extractCommonWords messages).take 10
            common_phrases := (extractCommonPhrases messages).take 5
            message_count := messages.length
            style_description := describeStyle avg })

example : (analyzeContext "дедлайн завтра" none).detected_context =
    "professional" := by with_unfolding_all decide

example : (analyzeContext "" none).detected_context = "unknown" := by
  with_unfolding_all decide

example :
    extractCommonPhrases ["ааа ббб", "ааа ббб", "ввв ггг", "ввв ггг"] =
      ["ааа ббб", "ввв ггг"] := by with_unfolding_all decide

/-! ## Supporting lemmas -/

theorem pyMin_nonneg {a b : ℚ} (ha : 0 ≤ a) (hb : 0 ≤ b) : 0 ≤ pyMin a b := by
  unfold pyMin
  split <;> assumption

theorem pyMin_le_right (a b : ℚ) : pyMin a b ≤ b := by
  unfold pyMin
  split
  · assumption
  · exact le_refl b

theorem min_zero_one : min (0:ℚ) 1 = 0 := min_eq_left (by norm_num)

theorem calculateKeywordScore_nonneg (m : String) (kws : List String) :
    0 ≤ calculateKeywordScore m kws := by
  unfold calculateKeywordScore
  split
  · exact le_refl 0
  · exact pyMin_nonneg (by positivity) (by norm_num)

theorem calculateAvoidScore_nil (m : String) :
    calculateAvoidScore m [] = 0 := by
  simp [calculateAvoidScore]

theorem countMatches_nil (m : String) : countMatches m [] = 0 := rfl

/-- The keyword score is exactly the clamped linear formula whenever the
list is a real keyword list (non-empty, and matching nothing in the empty
message). -/
theorem calculateKeywordScore_formula (m : String) (kws : List String)
    (hne : kws ≠ []) (h0 : countMatches "" kws = 0) :
    calculateKeywordScore m kws = min (0.3 * (countMatches m kws : ℚ)) 1 := by
  by_cases hm : m = ""
  · subst hm
    simp [calculateKeywordScore, h0, min_zero_one]
  · simp [calculateKeywordScore, hm, hne, pyMin_eq_min, mul_comm]

/-- Avoid-score analogue of `calculateKeywordScore_formula`. -/
theorem calculateAvoidScore_formula (m : String) (ws : List String)
    (hne : ws ≠ []) (h0 : countMatches "" ws = 0) :
    calculateAvoidScore m ws = min (0.2 * (countMatches m ws : ℚ)) 1 := by
  by_cases hm : m = ""
  · subst hm
    simp [calculateAvoidScore, h0, min_zero_one]
  · simp [calculateAvoidScore, hm, hne, pyMin_eq_min, mul_comm]

/-- With all optional signals absent the loop body collapses to the
keyword and avoid terms. -/
theorem contextScore_empty (m : String) (r : ContextRules) (name : String) :
    contextScore m r name {} {} {} =
      calculateKeywordScore m r.keywords * weightKeywordMatch -
        calculateAvoidScore m r.avoid_keywords * 0.2 := by
  simp [contextScore]

/-- Modelled from the spec: "score reduces exactly to 0.4×keyword_score −
0.2×avoid_score" with "keyword_score=min(0.3×matched_keyword_count,1),
avoid_score=min(0.2×matched_avoid_count,1)"; stated for comparison with
the code's `contextScore`. -/
def specContextScore (m : String) (r : ContextRules) : ℚ :=
  0.4 * min (0.3 * (countMatches m r.keywords : ℚ)) 1 -
    0.2 * min (0.2 * (countMatches m r.avoid_keywords : ℚ)) 1

/-- One-context version of the C2 score identity. -/
theorem contextScore_eq_spec (m : String) (r : ContextRules) (name : String)
    (hk : r.keywords ≠ []) (h0 : countMatches "" r.keywords = 0)
    (hav : r.avoid_keywords = [] ∨
      (r.avoid_keywords ≠ [] ∧ countMatches "" r.avoid_keywords = 0)) :
    contextScore m r name {} {} {} = specContextScore m r := by
  rw [contextScore_empty, calculateKeywordScore_formula m r.keywords hk h0]
  unfold specContextScore weightKeywordMatch
  rcases hav with hae | ⟨hane, h0a⟩
  · rw [hae, calculateAvoidScore_nil, countMatches_nil]
    simp [min_zero_one]
    ring
  · rw [calculateAvoidScore_formula m r.avoid_keywords hane h0a]
    ring

/-- C2: without dialog history, preferences, and time info, every one of
the five per-context scores computed by `route_context` equals exactly
0.4×min(0.3×matched_keyword_count, 1) − 0.2×min(0.2×matched_avoid_count,
1), keywords matched by case-insensitive substring containment and counted
once each. -/
theorem routeScores_empty_signals_formula (m : String) :
    routeScores contextRules m (routeHistoryAnalysis contextRules [])
        (routeTimeAnalysis none) (routePrefsAnalysis none) =
      [("professional", specContextScore m professionalRules),
       ("family", specContextScore m familyRules),
       ("romantic", specContextScore m romanticRules),
       ("friendly", specContextScore m friendlyRules),
       ("creative", specContextScore m creativeRules)] := by
  show [("professional", contextScore m professionalRules "professional" {} {} {}),
        ("family", contextScore m familyRules "family" {} {} {}),
        ("romantic", contextScore m romanticRules "romantic" {} {} {}),
        ("friendly", contextScore m friendlyRules "friendly" {} {} {}),
        ("creative", contextScore m creativeRules "creative" {} {} {})] = _
  rw [contextScore_eq_spec m professionalRules "professional" (by decide)
      (by decide) (Or.inr ⟨by decide, by decide⟩),
    contextScore_eq_spec m familyRules "family" (by decide) (by decide)
      (Or.inr ⟨by decide, by decide⟩),
    contextScore_eq_spec m romanticRules "romantic" (by decide) (by decide)
      (Or.inl rfl),
    contextScore_eq_spec m friendlyRules "friendly" (by decide) (by decide)
      (Or.inl rfl),
    contextScore_eq_spec m creativeRules "creative" (by decide) (by decide)
      (Or.inl rfl)]

/-- C5: switching professional→family with empty history is blocked,
friendly→professional is allowed, and switching any context to itself is
always allowed whatever the history. -/
theorem validateContextSwitch_fixtures :
    (validateContextSwitch contextRules "professional" "family" []).1 = false ∧
    (validateContextSwitch contextRules "friendly" "professional" []).1 = true ∧
    ∀ (c : String) (history : List String),
      (validateContextSwitch contextRules c c history).1 = true := by
  refine ⟨by decide, by decide, ?_⟩
  intro c history
  simp [validateContextSwitch]

/-- C6: with an empty rule table `route_context` does not return the
friendly/0.5 fallback; it raises a `KeyError` on the raw
`self.context_rules[primary_context]` access while assembling the
reasoning (modelled as `none`), for every message and optional input. -/
theorem routeContext_empty_rules_raises (m : String) (dh : List String)
    (up : Option Preferences) (ti : Option TimeInfo) :
    routeContext [] m dh up ti = none := rfl

/-- C7: analyzing the empty string returns the neutral dict — context
"unknown", confidence 0, no characteristics, no suggested responses, an
empty suggested-context list — for any dialog-context argument, without
raising. -/
theorem analyzeContext_empty_neutral (dc : Option String) :
    analyzeContext "" dc =
      { detected_context := "unknown", confidence := 0,
        characteristics := none, suggested_responses := none,
        suggested_contexts := some [] } := rfl

/-- C10: on any non-empty text and any dialog-context argument the
analyzer's confidence is the constant 0.8. -/
theorem analyzeContext_confidence_const (text : String) (dc : Option String)
    (h : text ≠ "") : (analyzeContext text dc).confidence = 0.8 := by
  simp [analyzeContext, h]

/-- Witness for `analyzeContext_confidence_const` at a concrete text. -/
theorem analyzeContext_confidence_const_witness :
    "привет" ≠ "" ∧ (analyzeContext "привет" none).confidence = 0.8 :=
  ⟨by decide, analyzeContext_confidence_const "привет" none (by decide)⟩

/-- A successful association-list lookup comes from an entry of the list. -/
theorem lookup_mem {α : Type} {a : String} {b : α} :
    ∀ {l : List (String × α)}, l.lookup a = some b → (a, b) ∈ l
  | [], h => by simp [List.lookup] at h
  | (k, v) :: tl, h => by
      rw [List.lookup] at h
      cases hbe : (a == k) with
      | true =>
          rw [hbe] at h
          injection h with hv
          subst hv
          have hak : a = k := eq_of_beq hbe
          subst hak
          exact List.mem_cons_self _ _
      | false =>
          rw [hbe] at h
          exact List.mem_cons_of_mem _ (lookup_mem h)

/-- Any key appearing in the list can be looked up. -/
theorem lookup_isSome_of_mem_keys {α : Type} {a : String} :
    ∀ {l : List (String × α)}, a ∈ l.map Prod.fst →
      ∃ b, l.lookup a = some b
  | [], h => by simp at h
  | (k, v) :: tl, h => by
      cases hbe : (a == k) with
      | true => exact ⟨v, by rw [List.lookup, hbe]⟩
      | false =>
          have hne : a ≠ k := fun he => by simp [he] at hbe
          have : a ∈ tl.map Prod.fst := by
            rcases List.mem_cons.mp h with he | ht
            · exact absurd he hne
            · exact ht
          obtain ⟨b, hb⟩ := lookup_isSome_of_mem_keys this
          exact ⟨b, by rw [List.lookup, hbe, hb]⟩

/-- In a list with distinct keys, any entry agrees with the lookup. -/
theorem mem_lookup_unique {α : Type} {a : String} {b c : α} :
    ∀ {l : List (String × α)}, (l.map Prod.fst).Nodup →
      (a, c) ∈ l → l.lookup a = some b → c = b
  | [], _, hm, _ => by simp at hm
  | (k, v) :: tl, hnd, hm, h => by
      rw [List.lookup] at h
      rcases List.mem_cons.mp hm with he | ht
      · have hak : a = k := congrArg Prod.fst he
        have hcv : c = v := congrArg Prod.snd he
        rw [hak, beq_self_eq_true] at h
        injection h with hv
        rw [hcv, hv]
      · cases hbe : (a == k) with
        | true =>
            have hak : a = k := eq_of_beq hbe
            have : a ∈ tl.map Prod.fst :=
              List.mem_map_of_mem Prod.fst ht
            rw [hak] at this
            exact absurd this ((List.nodup_cons.mp hnd).1)
        | false =>
            rw [hbe] at h
            exact mem_lookup_unique (List.nodup_cons.mp hnd).2 ht h

/-- Sorting keeps the key list a permutation, so the first component list
is unchanged up to order. -/
theorem routeScores_map_fst (rules : List (String × ContextRules))
    (m : String) (ha : HistoryAnalysis) (ta : TimeAnalysis)
    (pa : PreferencesAnalysis) :
    (routeScores rules m ha ta pa).map Prod.fst = rules.map Prod.fst := by
  simp [routeScores]

/-- The head of the score-descending sort dominates every score. -/
theorem head_ge_of_insertionSort {l : List (String × ℚ)} {pc : String}
    {ps : ℚ} {rest : List (String × ℚ)}
    (h : l.insertionSort scoreGE = (pc, ps) :: rest) :
    ∀ z ∈ l, z.2 ≤ ps := by
  intro z hz
  have hperm := List.perm_insertionSort scoreGE l
  have hzs : z ∈ (pc, ps) :: rest := by
    rw [← h]
    exact hperm.symm.subset hz
  have hsorted := List.sorted_insertionSort scoreGE l
  rw [h] at hsorted
  rcases List.mem_cons.mp hzs with rfl | hz2
  · exact le_refl _
  · exact (List.sorted_cons.mp hsorted).1 z hz2

/-- The sorted score list over the real five-entry rule table is never
empty. -/
theorem insertionSort_routeScores_ne_nil (m : String) (ha : HistoryAnalysis)
    (ta : TimeAnalysis) (pa : PreferencesAnalysis) :
    (routeScores contextRules m ha ta pa).insertionSort scoreGE ≠ [] := by
  intro h
  have hperm := List.perm_insertionSort scoreGE
    (routeScores contextRules m ha ta pa)
  rw [h] at hperm
  have hlen := hperm.length_eq
  simp [routeScores, contextRules] at hlen

/-- Evaluation of the ranking tail on a non-empty sorted list whose head
context can be looked up. -/
theorem routeFromSorted_cons (rules : List (String × ContextRules))
    (ma : MessageAnalysis) (ha : HistoryAnalysis) (ta : TimeAnalysis)
    (pc : String) (ps : ℚ) (rest : List (String × ℚ)) (pr : ContextRules)
    (hpr : rules.lookup pc = some pr) :
    routeFromSorted rules ma ha ta ((pc, ps) :: rest) =
      some { primary_context := pc
             secondary_contexts :=
               (match rest with
                | [] => []
                | (sc, ss) :: _ => if pyAbs (ps - ss) < 0.1 then [sc] else [])
             confidence := pyMin (ps / (weightKeywordMatch +
               weightDialogHistory + weightTimeOfDay +
               weightUserPreferences)) 1
             reasoning := mkReasoning ma ha ta pc pr
             suggestions := generateSuggestions rules pc ma ta } := by
  simp only [routeFromSorted]
  rw [hpr]

/-- Structural description of `route_context` over the real rule table:
it always succeeds, the primary context and score are the head of the
stably sorted score list, the confidence is the clamped normalized head
score, and the secondary list comes from the runner-up under the 0.1
closeness test. -/
theorem routeContext_shape (m : String) (dh : List String)
    (up : Option Preferences) (ti : Option TimeInfo) :
    ∃ pc ps rest,
      (routeScores contextRules m (routeHistoryAnalysis contextRules dh)
          (routeTimeAnalysis ti) (routePrefsAnalysis up)).insertionSort
          scoreGE = (pc, ps) :: rest ∧
      ∃ r, routeContext contextRules m dh up ti = some r ∧
        r.primary_context = pc ∧
        r.confidence = pyMin (ps / (weightKeywordMatch + weightDialogHistory +
          weightTimeOfDay + weightUserPreferences)) 1 ∧
        r.secondary_contexts =
          (match rest with
           | [] => []
           | (sc, ss) :: _ => if pyAbs (ps - ss) < 0.1 then [sc] else []) := by
  cases hsort : (routeScores contextRules m
      (routeHistoryAnalysis contextRules dh) (routeTimeAnalysis ti)
      (routePrefsAnalysis up)).insertionSort scoreGE with
  | nil =>
      exact absurd hsort (insertionSort_routeScores_ne_nil m _ _ _)
  | cons head rest =>
      obtain ⟨pc, ps⟩ := head
      have hpcmem : pc ∈ contextRules.map Prod.fst := by
        have hperm := List.perm_insertionSort scoreGE
          (routeScores contextRules m (routeHistoryAnalysis contextRules dh)
            (routeTimeAnalysis ti) (routePrefsAnalysis up))
        rw [hsort] at hperm
        have h1 : (pc, ps) ∈ routeScores contextRules m
            (routeHistoryAnalysis contextRules dh) (routeTimeAnalysis ti)
            (routePrefsAnalysis up) :=
          hperm.subset (List.mem_cons_self _ _)
        have h2 := List.mem_map_of_mem Prod.fst h1
        rwa [routeScores_map_fst] at h2
      obtain ⟨pr, hpr⟩ := lookup_isSome_of_mem_keys hpcmem
      refine ⟨pc, ps, rest, rfl, ?_⟩
      have h0 : routeContext contextRules m dh up ti =
          routeFromSorted contextRules (analyzeMessage contextRules m)
            (routeHistoryAnalysis contextRules dh) (routeTimeAnalysis ti)
            ((routeScores contextRules m (routeHistoryAnalysis contextRules dh)
              (routeTimeAnalysis ti) (routePrefsAnalysis up)).insertionSort
              scoreGE) := rfl
  /- rewrite the scrutinee through `congrArg`, which sidesteps any motive
  abstraction over the large score expression -/
      have h1 := congrArg (routeFromSorted contextRules
        (analyzeMessage contextRules m) (routeHistoryAnalysis contextRules dh)
        (routeTimeAnalysis ti)) hsort
      have heq := (h0.trans h1).trans
        (routeFromSorted_cons contextRules (analyzeMessage contextRules m)
          (routeHistoryAnalysis contextRules dh) (routeTimeAnalysis ti)
          pc ps rest pr hpr)
      exact ⟨_, heq, rfl, rfl, rfl⟩

/-- A context with no avoid keywords can never score negatively: every
other term of the loop body is non-negative. -/
theorem contextScore_nonneg_of_no_avoid (m : String) (r : ContextRules)
    (name : String) (ha : HistoryAnalysis) (ta : TimeAnalysis)
    (pa : PreferencesAnalysis) (hav : r.avoid_keywords = []) :
    0 ≤ contextScore m r name ha ta pa := by
  have hkw : 0 ≤ calculateKeywordScore m r.keywords * weightKeywordMatch :=
    mul_nonneg (calculateKeywordScore_nonneg m r.keywords)
      (by norm_num [weightKeywordMatch])
  simp only [contextScore, hav, calculateAvoidScore_nil, zero_mul, sub_zero]
  rcases ha.recent_context with _ | rc <;>
    rcases ta.current_period with _ | p <;>
      rcases pa.fav_contexts with _ | favs <;>
        simp only [weightDialogHistory, weightTimeOfDay,
          weightUserPreferences] <;>
        (try split_ifs) <;> linarith

/-- C1: for every message and every combination of optional inputs,
`route_context` over the real rule table returns, without failing, a
confidence inside [0, 1]; the avoid-keyword subtraction can never drive it
negative because the top score dominates the creative score, which has no
avoid keywords. -/
theorem routeContext_confidence_unit_interval (m : String)
    (dh : List String) (up : Option Preferences) (ti : Option TimeInfo) :
    ∃ r, routeContext contextRules m dh up ti = some r ∧
      0 ≤ r.confidence ∧ r.confidence ≤ 1 := by
  obtain ⟨pc, ps, rest, hsort, r, hr, hpc, hconf, hsec⟩ :=
    routeContext_shape m dh up ti
  have hW : weightKeywordMatch + weightDialogHistory + weightTimeOfDay +
      weightUserPreferences = 1 := by
    norm_num [weightKeywordMatch, weightDialogHistory, weightTimeOfDay,
      weightUserPreferences]
  refine ⟨r, hr, ?_, ?_⟩
  · rw [hconf, hW, div_one]
    have hmem : ("creative", contextScore m creativeRules "creative"
        (routeHistoryAnalysis contextRules dh) (routeTimeAnalysis ti)
        (routePrefsAnalysis up)) ∈ routeScores contextRules m
        (routeHistoryAnalysis contextRules dh) (routeTimeAnalysis ti)
        (routePrefsAnalysis up) := by
      simp [routeScores, contextRules]
    have hle := head_ge_of_insertionSort hsort _ hmem
    have hnn : 0 ≤ contextScore m creativeRules "creative"
        (routeHistoryAnalysis contextRules dh) (routeTimeAnalysis ti)
        (routePrefsAnalysis up) :=
      contextScore_nonneg_of_no_avoid m creativeRules "creative" _ _ _ rfl
    exact pyMin_nonneg (le_trans hnn hle) (by norm_num)
  · rw [hconf]
    exact pyMin_le_right _ 1

/-- C3: for every input, `route_context` over the real rule table returns
a route whose secondary list never contains the primary context, and any
secondary context's score differs from the top (primary) score by
strictly less than 0.1. -/
theorem routeContext_secondary_sound (m : String) (dh : List String)
    (up : Option Preferences) (ti : Option TimeInfo) :
    ∃ r, routeContext contextRules m dh up ti = some r ∧
      r.primary_context ∉ r.secondary_contexts ∧
      ∀ c ∈ r.secondary_contexts, ∃ sp sc,
        (r.primary_context, sp) ∈ routeScores contextRules m
          (routeHistoryAnalysis contextRules dh) (routeTimeAnalysis ti)
          (routePrefsAnalysis up) ∧
        (c, sc) ∈ routeScores contextRules m
          (routeHistoryAnalysis contextRules dh) (routeTimeAnalysis ti)
          (routePrefsAnalysis up) ∧
        |sp - sc| < 0.1 := by
  obtain ⟨pc, ps, rest, hsort, r, hr, hpc, hconf, hsec⟩ :=
    routeContext_shape m dh up ti
  have hperm := List.perm_insertionSort scoreGE
    (routeScores contextRules m (routeHistoryAnalysis contextRules dh)
      (routeTimeAnalysis ti) (routePrefsAnalysis up))
  rw [hsort] at hperm
  have hnd : (((pc, ps) :: rest).map Prod.fst).Nodup := by
    have hp2 := hperm.map Prod.fst
    rw [routeScores_map_fst] at hp2
    exact hp2.nodup_iff.mpr (by decide)
  refine ⟨r, hr, ?_, ?_⟩
  · rw [hpc, hsec]
    cases rest with
    | nil => simp
    | cons hd tl =>
        obtain ⟨sc, ss⟩ := hd
        simp only [List.map, List.nodup_cons, List.mem_cons] at hnd
        by_cases hif : pyAbs (ps - ss) < 0.1
        · simpa [hif] using fun he => hnd.1 (Or.inl he)
        · simp [hif]
  · intro c hc
    rw [hsec] at hc
    cases rest with
    | nil => simp at hc
    | cons hd tl =>
        obtain ⟨sc, ss⟩ := hd
        by_cases hif : pyAbs (ps - ss) < 0.1
        · simp only [hif, if_true] at hc
          have hcsc : c = sc := by simpa using hc
          subst hcsc
          refine ⟨ps, ss, ?_, ?_, ?_⟩
          · rw [hpc]
            exact hperm.subset (List.mem_cons_self _ _)
          · exact hperm.subset
              (List.mem_cons_of_mem _ (List.mem_cons_self _ _))
          · rw [← pyAbs_eq_abs]
            exact hif
        · simp [hif] at hc

theorem calculateAvoidScore_nonneg (m : String) (ws : List String) :
    0 ≤ calculateAvoidScore m ws := by
  unfold calculateAvoidScore
  split
  · exact le_refl 0
  · exact pyMin_nonneg (by positivity) (by norm_num)

/-- A keyword list with no match contributes a zero keyword score. -/
theorem calculateKeywordScore_zero (m : String) (kws : List String)
    (h : countMatches m kws = 0) : calculateKeywordScore m kws = 0 := by
  unfold calculateKeywordScore
  split
  · rfl
  · rw [h]
    norm_num [pyMin]

/-- At least one keyword match pushes the keyword score to 0.3 or more. -/
theorem calculateKeywordScore_ge (m : String) (kws : List String)
    (hm : m ≠ "") (h : 1 ≤ countMatches m kws) :
    0.3 ≤ calculateKeywordScore m kws := by
  have hkne : kws ≠ [] := by
    intro he
    rw [he, countMatches_nil] at h
    exact absurd h (by norm_num)
  have hc : (1:ℚ) ≤ (countMatches m kws : ℚ) := by exact_mod_cast h
  unfold calculateKeywordScore
  rw [if_neg (by simp [hm, hkne])]
  unfold pyMin
  split <;> nlinarith

/-- A keyword occurring in the message witnesses a positive match count. -/
theorem countMatches_pos (m w : String) (kws : List String) (hw : w ∈ kws)
    (h : keywordInMessage w m = true) : 1 ≤ countMatches m kws := by
  unfold countMatches
  exact List.length_pos_of_mem (List.mem_filter.mpr ⟨hw, h⟩)

/-- A zero match count means no listed word occurs in the message. -/
theorem keywordInMessage_false_of_zero (m w : String) (kws : List String)
    (hw : w ∈ kws) (h : countMatches m kws = 0) :
    keywordInMessage w m = false := by
  unfold countMatches at h
  have hnil := List.length_eq_zero.mp h
  rcases hb : keywordInMessage w m with _ | _
  · rfl
  · exact absurd (hnil ▸ List.mem_filter.mpr ⟨hw, hb⟩) (List.not_mem_nil w)

/-- An avoid count of at most 3 keeps the avoid score at or below 0.6. -/
theorem calculateAvoidScore_le (m : String) (ws : List String)
    (h : countMatches m ws ≤ 3) : calculateAvoidScore m ws ≤ 0.6 := by
  have hc : (countMatches m ws : ℚ) ≤ 3 := by exact_mod_cast h
  unfold calculateAvoidScore
  split
  · norm_num
  · unfold pyMin
    split <;> nlinarith

/-- Without optional signals, a context that matches no keyword scores at
most zero. -/
theorem contextScore_nonpos_of_zero (m : String) (r : ContextRules)
    (name : String) (hk : countMatches m r.keywords = 0) :
    contextScore m r name {} {} {} ≤ 0 := by
  rw [contextScore_empty, calculateKeywordScore_zero _ _ hk]
  have := calculateAvoidScore_nonneg m r.avoid_keywords
  unfold weightKeywordMatch
  nlinarith

/-- Without optional signals, a context that matches no keyword and has
no avoid list scores exactly zero. -/
theorem contextScore_zero_of (m : String) (r : ContextRules) (name : String)
    (hk : countMatches m r.keywords = 0) (hav : r.avoid_keywords = []) :
    contextScore m r name {} {} {} = 0 := by
  rw [contextScore_empty, calculateKeywordScore_zero _ _ hk, hav,
    calculateAvoidScore_nil]
  ring

/-- C4 fails as stated: this message contains "дедлайн" and no family or
romantic keyword, yet the Router picks "friendly" (three friendly
keywords outscore the one professional keyword); the Router has no
category override. -/
theorem routeContext_deadline_counterexample :
    keywordInMessage "дедлайн" "дедлайн друг кафе кино" = true ∧
    countMatches "дедлайн друг кафе кино" familyRules.keywords = 0 ∧
    countMatches "дедлайн друг кафе кино" romanticRules.keywords = 0 ∧
    (routeContext contextRules "дедлайн друг кафе кино" [] none none).map
      ContextRoute.primary_context = some "friendly" ∧
    (routeContext contextRules "дедлайн друг кафе кино" [] none none).map
      ContextRoute.primary_context ≠ some "professional" := by
  with_unfolding_all decide

/-- C4 (amended): every message containing "дедлайн" makes the Style
Analyzer detect "professional" (its work override runs first,
unconditionally); the Router, called with no optional inputs, also
returns primary "professional" provided the message additionally matches
no family, romantic, friendly, or creative keyword. -/
theorem deadline_professional_amended (m : String) (dc : Option String)
    (hdl : keywordInMessage "дедлайн" m = true) :
    (analyzeContext m dc).detected_context = "professional" ∧
    (countMatches m familyRules.keywords = 0 →
     countMatches m romanticRules.keywords = 0 →
     countMatches m friendlyRules.keywords = 0 →
     countMatches m creativeRules.keywords = 0 →
     ∃ r, routeContext contextRules m [] none none = some r ∧
       r.primary_context = "professional") := by
  have hm : m ≠ "" := by
    intro he
    rw [he] at hdl
    exact absurd hdl (by decide)
  have hwork : isWorkRelated m = true :=
    List.any_eq_true.mpr ⟨"дедлайн", by decide, hdl⟩
  constructor
  · simp [analyzeContext, hm, hwork]
  · intro hfam hrom hfri hcre
    -- the three contexts with no avoid keywords score exactly 0
    have hR0 := contextScore_zero_of m romanticRules "romantic" hrom rfl
    have hFr0 := contextScore_zero_of m friendlyRules "friendly" hfri rfl
    have hC0 := contextScore_zero_of m creativeRules "creative" hcre rfl
    -- family can only lose points
    have hFle := contextScore_nonpos_of_zero m familyRules "family" hfam
    -- professional scores at least 0.12 - 0.12 = 0
    have hkw : 0.3 ≤ calculateKeywordScore m professionalRules.keywords :=
      calculateKeywordScore_ge m _ hm
        (countMatches_pos m "дедлайн" _ (by decide) hdl)
    have hlyu : keywordInMessage "люблю" m = false :=
      keywordInMessage_false_of_zero m "люблю" romanticRules.keywords
        (by decide) hrom
    have havcnt : countMatches m professionalRules.avoid_keywords ≤ 3 := by
      show (professionalRules.avoid_keywords.filter
        (fun w => keywordInMessage w m)).length ≤ 3
      have he : professionalRules.avoid_keywords =
          "люблю" :: ["обнимаю", "целую", "ха-ха"] := rfl
      rw [he, List.filter_cons, hlyu]
      simp only [Bool.false_eq_true, if_false]
      exact le_trans (List.length_filter_le _ _) (by decide)
    have hav : calculateAvoidScore m professionalRules.avoid_keywords ≤ 0.6 :=
      calculateAvoidScore_le m _ havcnt
    have hP : 0 ≤ contextScore m professionalRules "professional" {} {} {} := by
      rw [contextScore_empty]
      unfold weightKeywordMatch
      nlinarith
    have hPF : contextScore m familyRules "family" {} {} {} ≤
        contextScore m professionalRules "professional" {} {} {} :=
      le_trans hFle hP
    -- assemble the concrete score list
    have hscores : routeScores contextRules m {} {} {} =
        [("professional", contextScore m professionalRules "professional" {} {} {}),
         ("family", contextScore m familyRules "family" {} {} {}),
         ("romantic", (0:ℚ)), ("friendly", (0:ℚ)), ("creative", (0:ℚ))] := by
      show [("professional", contextScore m professionalRules "professional" {} {} {}),
            ("family", contextScore m familyRules "family" {} {} {}),
            ("romantic", contextScore m romanticRules "romantic" {} {} {}),
            ("friendly", contextScore m friendlyRules "friendly" {} {} {}),
            ("creative", contextScore m creativeRules "creative" {} {} {})] = _
      rw [hR0, hFr0, hC0]
    have hlook : contextRules.lookup "professional" = some professionalRules := by
      decide
    have h0 : routeContext contextRules m [] none none =
        routeFromSorted contextRules (analyzeMessage contextRules m) {} {}
          ((routeScores contextRules m {} {} {}).insertionSort scoreGE) := rfl
    have h1 := congrArg (fun l : List (String × ℚ) =>
      routeFromSorted contextRules (analyzeMessage contextRules m) {} {}
        (l.insertionSort scoreGE)) hscores
    rcases le_or_lt 0 (contextScore m familyRules "family" {} {} {}) with hF0 | hF0
    · have hsorted :
          ([("professional", contextScore m professionalRules "professional" {} {} {}),
            ("family", contextScore m familyRules "family" {} {} {}),
            ("romantic", (0:ℚ)), ("friendly", (0:ℚ)),
            ("creative", (0:ℚ))].insertionSort scoreGE) =
          [("professional", contextScore m professionalRules "professional" {} {} {}),
           ("family", contextScore m familyRules "family" {} {} {}),
           ("romantic", (0:ℚ)), ("friendly", (0:ℚ)), ("creative", (0:ℚ))] := by
        simp [List.insertionSort, List.orderedInsert, scoreGE, hF0, hPF]
      have h2 := congrArg (routeFromSorted contextRules
        (analyzeMessage contextRules m) {} {}) hsorted
      refine ⟨_, (h0.trans h1).trans (h2.trans
        (routeFromSorted_cons contextRules _ _ _ "professional" _ _
          professionalRules hlook)), rfl⟩
    · have hnF : ¬ ((0:ℚ) ≤ contextScore m familyRules "family" {} {} {}) :=
        not_le.mpr hF0
      have hsorted :
          ([("professional", contextScore m professionalRules "professional" {} {} {}),
            ("family", contextScore m familyRules "family" {} {} {}),
            ("romantic", (0:ℚ)), ("friendly", (0:ℚ)),
            ("creative", (0:ℚ))].insertionSort scoreGE) =
          [("professional", contextScore m professionalRules "professional" {} {} {}),
           ("romantic", (0:ℚ)), ("friendly", (0:ℚ)), ("creative", (0:ℚ)),
           ("family", contextScore m familyRules "family" {} {} {})] := by
        simp [List.insertionSort, List.orderedInsert, scoreGE, hnF, hP]
      have h2 := congrArg (routeFromSorted contextRules
        (analyzeMessage contextRules m) {} {}) hsorted
      refine ⟨_, (h0.trans h1).trans (h2.trans
        (routeFromSorted_cons contextRules _ _ _ "professional" _ _
          professionalRules hlook)), rfl⟩

/-- Witness for `deadline_professional_amended` at the one-word message,
also instantiating the Router-side conditions. -/
theorem deadline_professional_amended_witness :
    (analyzeContext "дедлайн" none).detected_context = "professional" ∧
    ∃ r, routeContext contextRules "дедлайн" [] none none = some r ∧
      r.primary_context = "professional" :=
  ⟨(deadline_professional_amended "дедлайн" none (by decide)).1,
   (deadline_professional_amended "дедлайн" none (by decide)).2
     (by decide) (by decide) (by decide) (by decide)⟩

/-- A context name is collected for a message exactly when one of its rule
keywords occurs in that message (the table has distinct keys). -/
theorem mem_contextHits_iff (proposed : String) (pr : ContextRules)
    (msg : String) (hpr : contextRules.lookup proposed = some pr) :
    proposed ∈ contextHits contextRules msg ↔
      pr.keywords.any (fun k => keywordInMessage k msg) = true := by
  constructor
  · intro h
    obtain ⟨cr, hcr, hif⟩ := List.mem_filterMap.mp h
    by_cases hb : cr.2.keywords.any (fun k => keywordInMessage k msg) = true
    · rw [if_pos hb] at hif
      injection hif with hname
      have hmem : (cr.1, cr.2) ∈ contextRules := by simpa using hcr
      rw [hname] at hmem
      have heq : cr.2 = pr := mem_lookup_unique (by decide) hmem hpr
      rw [← heq]
      exact hb
    · rw [if_neg hb] at hif
      exact absurd hif (by simp)
  · intro h
    exact List.mem_filterMap.mpr ⟨(proposed, pr), lookup_mem hpr, by simp [h]⟩

/-- C8 fails as stated: friendly→professional is an allowed cross-context
transition and every one of the (exactly 3) history entries contains a
professional keyword, yet the code answers with the generic reason —
the history inspection only runs when `len(dialog_history) > 3`. -/
theorem validateContextSwitch_len3_counterexample :
    "friendly" ≠ "professional" ∧
    "professional" ∈ (compatibility.lookup "friendly").getD [] ∧
    (["дедлайн", "дедлайн", "дедлайн"].any
      (fun msg => professionalRules.keywords.any
        (fun k => keywordInMessage k msg)) = true) ∧
    validateContextSwitch contextRules "friendly" "professional"
      ["дедлайн", "дедлайн", "дедлайн"] = (true, "Переход разрешен") := by
  decide

/-- C8 (amended): for every allowed cross-context transition and every
history, the validator answers the smooth-transition reason exactly when
the history has more than 3 entries and a keyword of the proposed context
occurs in one of the last 3; in every other case — including every
history of 3 or fewer entries, whatever it contains — it answers the
generic permitted reason. -/
theorem validateContextSwitch_smooth_amended (current proposed : String)
    (history : List String) (pr : ContextRules)
    (hne : current ≠ proposed)
    (hcompat : proposed ∈ (compatibility.lookup current).getD [])
    (hpr : contextRules.lookup proposed = some pr) :
    validateContextSwitch contextRules current proposed history =
      (true,
        if 3 < history.length ∧
            ((history.drop (history.length - 3)).any
              (fun msg => pr.keywords.any (fun k => keywordInMessage k msg))
              = true)
        then "Плавный переход на основе истории"
        else "Переход разрешен") := by
  have hiff : (proposed ∈ (history.drop (history.length - 3)).flatMap
        (contextHits contextRules)) ↔
      ((history.drop (history.length - 3)).any
        (fun msg => pr.keywords.any (fun k => keywordInMessage k msg))
        = true) := by
    rw [List.mem_flatMap, List.any_eq_true]
    constructor
    · rintro ⟨msg, hmsg, hin⟩
      exact ⟨msg, hmsg, (mem_contextHits_iff proposed pr msg hpr).mp hin⟩
    · rintro ⟨msg, hmsg, hany⟩
      exact ⟨msg, hmsg, (mem_contextHits_iff proposed pr msg hpr).mpr hany⟩
  simp only [validateContextSwitch]
  rw [if_neg hne, if_neg (not_not_intro hcompat)]
  by_cases hlen : 3 < history.length
  · rw [if_pos hlen]
    by_cases hb : (history.drop (history.length - 3)).any
        (fun msg => pr.keywords.any (fun k => keywordInMessage k msg)) = true
    · rw [if_pos (hiff.mpr hb), if_pos ⟨hlen, hb⟩]
    · rw [if_neg (fun hmem => hb (hiff.mp hmem)),
        if_neg (fun hc => hb hc.2)]
  · rw [if_neg hlen, if_neg (fun hc => hlen hc.1)]

/-- Witness for `validateContextSwitch_smooth_amended` on a 4-entry
history whose last 3 entries mention a deadline. -/
theorem validateContextSwitch_smooth_amended_witness :
    validateContextSwitch contextRules "friendly" "professional"
      ["привет", "привет", "ок", "дедлайн завтра"] =
      (true, "Плавный переход на основе истории") := by
  have h := validateContextSwitch_smooth_amended "friendly" "professional"
    ["привет", "привет", "ок", "дедлайн завтра"] professionalRules
    (by decide) (by decide) (by decide)
  rw [h]
  decide

/-- Twelve 2-word messages over six distinct adjacent phrases, each phrase
occurring exactly twice. -/
def corpusC9 : List String :=
  ["ааа ббб", "ааа ббб", "ввв ггг", "ввв ггг", "ддд еее", "ддд еее",
   "жжж иии", "жжж иии", "ккк ллл", "ккк ллл", "ммм ннн", "ммм ннн"]

/-- C9 fails as stated: on a corpus with six adjacent 2-word phrases each
occurring twice, `_extract_common_phrases` finds all six, but the
signature keeps only `common_phrases[:5]` — not the claimed top 10. -/
theorem extractStyleSignature_phrases_counterexample :
    (extractCommonPhrases corpusC9).length = 6 ∧
    (extractStyleSignature corpusC9 "friendly").map
      (fun res =>
        match res with
        | SignatureResult.emptyDict => 99
        | SignatureResult.sig s => s.common_phrases.length) = some 5 := by
  decide

/-- Deduplication keeps every element that was not already seen. -/
theorem mem_dedupAux {x : String} :
    ∀ {l seen : List String}, x ∈ l → x ∉ seen → x ∈ dedupAux l seen
  | [], _, hx, _ => absurd hx (List.not_mem_nil x)
  | y :: ys, seen, hx, hseen => by
      show x ∈ (if y ∈ seen then dedupAux ys seen
        else y :: dedupAux ys (y :: seen))
      by_cases hy : y ∈ seen
      · rw [if_pos hy]
        rcases List.mem_cons.mp hx with rfl | hxs
        · exact absurd hy hseen
        · exact mem_dedupAux hxs hseen
      · rw [if_neg hy]
        rcases List.mem_cons.mp hx with rfl | hxs
        · exact List.mem_cons_self _ _
        · by_cases hxy : x = y
          · rw [hxy]
            exact List.mem_cons_self _ _
          · refine List.mem_cons_of_mem _ (mem_dedupAux hxs ?_)
            intro hc
            rcases List.mem_cons.mp hc with he | hcs
            · exact hxy he
            · exact hseen hcs

/-- Every element of the list survives first-occurrence deduplication. -/
theorem mem_dedupFirstOcc {x : String} {l : List String} (h : x ∈ l) :
    x ∈ dedupFirstOcc l :=
  mem_dedupAux h (List.not_mem_nil x)

/-- Every pair of the sorted count list stores the true corpus count of
its own phrase. -/
theorem mem_sorted_counts_eq (phrases : List String) (z : String × Nat)
    (hz : z ∈ ((dedupFirstOcc phrases).map
      (fun w => (w, phrases.count w))).insertionSort countGE) :
    z = (z.1, phrases.count z.1) := by
  have hmem : z ∈ (dedupFirstOcc phrases).map
      (fun w => (w, phrases.count w)) :=
    (List.perm_insertionSort countGE _).subset hz
  obtain ⟨w, hw, hwz⟩ := List.mem_map.mp hmem
  rw [← hwz]

/-- Everything `_extract_common_phrases` returns is an adjacent 2-word
phrase of the corpus occurring at least twice. -/
theorem mem_extractCommonPhrases (messages : List String) (p : String)
    (hp : p ∈ extractCommonPhrases messages) :
    p ∈ messages.flatMap adjacentPhrases ∧
    2 ≤ (messages.flatMap adjacentPhrases).count p := by
  simp only [extractCommonPhrases] at hp
  obtain ⟨q, hqmem, hqfst⟩ := List.mem_map.mp hp
  obtain ⟨hqtake, hqgt⟩ := List.mem_filter.mp hqmem
  have hq2 : 1 < q.2 := of_decide_eq_true hqgt
  have hqeq := mem_sorted_counts_eq (messages.flatMap adjacentPhrases) q
    (List.mem_of_mem_take hqtake)
  have hcnt : (messages.flatMap adjacentPhrases).count p = q.2 := by
    rw [← hqfst]
    exact (congrArg Prod.snd hqeq).symm
  constructor
  · have hpos : 0 < (messages.flatMap adjacentPhrases).count p := by omega
    exact List.count_pos_iff.mp hpos
  · omega

/-- In a count-descending list, anything kept among the first 5 of the
count>1 filter of the first 10 dominates anything with count>1 that is
not kept. -/
theorem sorted_take_filter_dominates (srt : List (String × Nat))
    (hsorted : List.Pairwise countGE srt) (pp qq : String × Nat)
    (hpp : pp ∈ ((srt.take 10).filter (fun pc => pc.2 > 1)).take 5)
    (hqq : qq ∈ srt) (hq2 : 1 < qq.2)
    (hqnot : qq ∉ ((srt.take 10).filter (fun pc => pc.2 > 1)).take 5) :
    qq.2 ≤ pp.2 := by
  have hppf : pp ∈ (srt.take 10).filter (fun pc => pc.2 > 1) :=
    List.mem_of_mem_take hpp
  have hpp10 : pp ∈ srt.take 10 := (List.mem_filter.mp hppf).1
  by_cases hq10 : qq ∈ srt.take 10
  · have hqf : qq ∈ (srt.take 10).filter (fun pc => pc.2 > 1) :=
      List.mem_filter.mpr ⟨hq10, decide_eq_true hq2⟩
    have hqdrop : qq ∈ ((srt.take 10).filter (fun pc => pc.2 > 1)).drop 5 := by
      have h1 : qq ∈ ((srt.take 10).filter (fun pc => pc.2 > 1)).take 5 ++
          ((srt.take 10).filter (fun pc => pc.2 > 1)).drop 5 := by
        rw [List.take_append_drop]
        exact hqf
      rcases List.mem_append.mp h1 with h2 | h2
      · exact absurd h2 hqnot
      · exact h2
    have hpwfl : List.Pairwise countGE
        ((srt.take 10).filter (fun pc => pc.2 > 1)) :=
      List.Pairwise.sublist
        ((List.filter_sublist _).trans (List.take_sublist _ _)) hsorted
    have hpw2 : List.Pairwise countGE
        (((srt.take 10).filter (fun pc => pc.2 > 1)).take 5 ++
          ((srt.take 10).filter (fun pc => pc.2 > 1)).drop 5) := by
      rw [List.take_append_drop]
      exact hpwfl
    exact (List.pairwise_append.mp hpw2).2.2 pp hpp qq hqdrop
  · have hqdrop : qq ∈ srt.drop 10 := by
      have h1 : qq ∈ srt.take 10 ++ srt.drop 10 := by
        rw [List.take_append_drop]
        exact hqq
      rcases List.mem_append.mp h1 with h2 | h2
      · exact absurd h2 hq10
      · exact h2
    have hpw2 : List.Pairwise countGE (srt.take 10 ++ srt.drop 10) := by
      rw [List.take_append_drop]
      exact hsorted
    exact (List.pairwise_append.mp hpw2).2.2 pp hpp10 qq hqdrop

/-- The first 5 extracted phrases dominate, by corpus count, every
qualifying phrase that is not among them. -/
theorem extractCommonPhrases_take5_dominates (messages : List String)
    (p q : String)
    (hp : p ∈ (extractCommonPhrases messages).take 5)
    (hq : q ∈ messages.flatMap adjacentPhrases)
    (hq2 : 2 ≤ (messages.flatMap adjacentPhrases).count q)
    (hqnot : q ∉ (extractCommonPhrases messages).take 5) :
    (messages.flatMap adjacentPhrases).count q ≤
      (messages.flatMap adjacentPhrases).count p := by
  simp only [extractCommonPhrases] at hp hqnot
  rw [← List.map_take] at hp hqnot
  obtain ⟨pp, hpp5, hppfst⟩ := List.mem_map.mp hp
  have hppfl := List.mem_of_mem_take hpp5
  have hppsrt := ((List.filter_sublist _).trans
    (List.take_sublist _ _)).subset hppfl
  have hppeq := mem_sorted_counts_eq (messages.flatMap adjacentPhrases)
    pp hppsrt
  have hqs : (q, (messages.flatMap adjacentPhrases).count q) ∈
      ((dedupFirstOcc (messages.flatMap adjacentPhrases)).map
        (fun w => (w, (messages.flatMap adjacentPhrases).count w))).insertionSort
        countGE :=
    (List.perm_insertionSort countGE _).symm.subset
      (List.mem_map_of_mem _ (mem_dedupFirstOcc hq))
  have hqnot5 : (q, (messages.flatMap adjacentPhrases).count q) ∉
      (((((dedupFirstOcc (messages.flatMap adjacentPhrases)).map
        (fun w => (w, (messages.flatMap adjacentPhrases).count w))).insertionSort
        countGE).take 10).filter (fun pc => pc.2 > 1)).take 5 := by
    intro hmem
    exact hqnot (List.mem_map_of_mem Prod.fst hmem)
  have hdom := sorted_take_filter_dominates _
    (List.sorted_insertionSort countGE _) pp
    (q, (messages.flatMap adjacentPhrases).count q) hpp5 hqs
    (lt_of_lt_of_le one_lt_two hq2) hqnot5
  have h2 : (messages.flatMap adjacentPhrases).count p = pp.2 := by
    rw [← hppfst]
    exact (congrArg Prod.snd hppeq).symm
  rw [h2]
  exact hdom

/-- C9 (amended): on any corpus the signature keeps at most 5 phrases;
each kept phrase is an adjacent 2-word phrase of the corpus occurring at
least twice, and the kept phrases are the most frequent such phrases:
any qualifying phrase that is not kept occurs no more often than any
kept one. -/
theorem extractStyleSignature_phrases_amended (messages : List String)
    (context : String) (s : StyleSignature)
    (h : extractStyleSignature messages context =
      some (SignatureResult.sig s)) :
    s.common_phrases.length ≤ 5 ∧
    (∀ p ∈ s.common_phrases,
      p ∈ messages.flatMap adjacentPhrases ∧
      2 ≤ (messages.flatMap adjacentPhrases).count p) ∧
    (∀ p ∈ s.common_phrases, ∀ q : String,
      q ∈ messages.flatMap adjacentPhrases →
      2 ≤ (messages.flatMap adjacentPhrases).count q →
      q ∉ s.common_phrases →
      (messages.flatMap adjacentPhrases).count q ≤
        (messages.flatMap adjacentPhrases).count p) := by
  unfold extractStyleSignature at h
  by_cases hne : messages = []
  · rw [if_pos hne] at h
    exact absurd h (by simp)
  · rw [if_neg hne] at h
    cases hcol : collectCharacteristics messages context with
    | none =>
        rw [hcol] at h
        exact absurd h (by simp)
    | some cs =>
        rw [hcol] at h
        injection h with h1
        injection h1 with h2
        have hphr : s.common_phrases =
            (extractCommonPhrases messages).take 5 := by
          rw [← h2]
        refine ⟨?_, ?_, ?_⟩
        · rw [hphr]
          exact List.length_take_le 5 _
        · intro p hp
          rw [hphr] at hp
          exact mem_extractCommonPhrases messages p
            (List.mem_of_mem_take hp)
        · intro p hp q hq hq2 hqnot
          rw [hphr] at hp hqnot
          exact extractCommonPhrases_take5_dominates messages p q
            hp hq hq2 hqnot

/-- The signature computed on `corpusC9` with context "friendly". -/
def sC9 : StyleSignature :=
  { context := "friendly"
    avg_characteristics :=
      [("formality", 0), ("emotionality", 0), ("humor_level", 0),
       ("emoji_frequency", 0), ("contains_questions", 0),
       ("contains_exclamations", 0), ("word_count", 2)]
    common_words := ["ааа", "ббб", "ввв", "ггг", "ддд", "еее",
                     "жжж", "иии", "ккк", "ллл"]
    common_phrases := ["ааа ббб", "ввв ггг", "ддд еее", "жжж иии",
                       "ккк ллл"]
    message_count := 12
    style_description := "неформальный, сдержанный, лаконичный" }

set_option maxRecDepth 40000 in
/-- Witness for `extractStyleSignature_phrases_amended` on `corpusC9`. -/
theorem extractStyleSignature_phrases_amended_witness :
    sC9.common_phrases.length ≤ 5 ∧
    (∀ p ∈ sC9.common_phrases,
      p ∈ corpusC9.flatMap adjacentPhrases ∧
      2 ≤ (corpusC9.flatMap adjacentPhrases).count p) ∧
    (∀ p ∈ sC9.common_phrases, ∀ q : String,
      q ∈ corpusC9.flatMap adjacentPhrases →
      2 ≤ (corpusC9.flatMap adjacentPhrases).count q →
      q ∉ sC9.common_phrases →
      (corpusC9.flatMap adjacentPhrases).count q ≤
        (corpusC9.flatMap adjacentPhrases).count p) :=
  extractStyleSignature_phrases_amended corpusC9 "friendly" sC9
    (by with_unfolding_all decide)
